import Mathlib

/-!
# Verification of the pisequencer timing/dispatch core

Shallow embedding of the frontend core of the `pisequencer` repository:

* `src/frontend/src/utils/AudioClock.ts` — the drift-aware step clock
  (`AudioClock` class: `calculateStepDuration`, `checkTiming`, `triggerStep`,
  `stop`, `setBpm`);
* `src/frontend/src/hooks/useSequencer.ts` — the sequencer state hook
  (`togglePad`, `getActiveChannels`, the 8×16 grid);
* `src/frontend/src/hooks/useWebSocket.ts` — the connection session
  (`sendMessage`, `triggerGpio`, and the reconnection options passed to the
  websocket library).

Times and durations are modelled as rationals (`ℚ`); the JavaScript numbers
involved are produced by divisions of integers and the claims under study are
exact arithmetic identities, so `ℚ` is the faithful exact model.  JavaScript
arrays become Lean lists; `Array.prototype.map((x, i) => ...)` becomes
`List.mapIdx`.  Indices arriving from callers are modelled as `Int`, since the
source performs `===` comparisons against them and a caller may pass any
integer, including a negative one.
-/

namespace PiSequencer

/-! ## AudioClock (src/frontend/src/utils/AudioClock.ts)

The class fields become a state structure.  `audioContext : AudioContext | null`
is modelled by `hasAudioContext : Bool` (the guards in the source only test it
for null-ness) together with an explicit `currentTime : ℚ` argument to the
operations that read `this.audioContext.currentTime`.
`animationFrameId : number | null` becomes an `Option Nat`; the fresh id
returned by `requestAnimationFrame` is passed in as an argument. -/

/-- `private totalSteps = 16` — fixed field, never reassigned. -/
def totalSteps : Nat := 16

/-- State of the `AudioClock` class instance. -/
structure AudioClock where
  isRunning : Bool
  bpm : ℚ
  currentStep : Nat
  animationFrameId : Option Nat
  startTime : ℚ
  nextStepTime : ℚ
  stepDuration : ℚ
  hasAudioContext : Bool
  deriving DecidableEq

/-- `calculateStepDuration()`: `(60.0 / this.bpm) / 4`. -/
def calculateStepDuration (bpm : ℚ) : ℚ :=
  (60 / bpm) / 4

/-- `triggerStep()`: invokes the step callback with the *pre-advance*
`currentStep` (returned as the event value) and advances
`currentStep = (currentStep + 1) % totalSteps`. -/
def triggerStep (c : AudioClock) : AudioClock × Nat :=
  ({ c with currentStep := (c.currentStep + 1) % totalSteps }, c.currentStep)

/-- `checkTiming()`: the repeating timing check.  Returns the updated state and
the step event fired during this invocation, if any.  `currentTime` models
`this.audioContext.currentTime` and `fid` the id returned by
`requestAnimationFrame`. -/
def checkTiming (c : AudioClock) (currentTime : ℚ) (fid : Nat) :
    AudioClock × Option Nat :=
  if !c.isRunning || !c.hasAudioContext then
    (c, none)
  else
    let (c1, ev) :=
      if c.nextStepTime ≤ currentTime then
        let (c', s) := triggerStep c
        ({ c' with nextStepTime := c'.nextStepTime + c'.stepDuration }, some s)
      else
        (c, none)
    ({ c1 with animationFrameId := some fid }, ev)

/-- `stop()`: sets `isRunning = false`, cancels the pending animation frame if
one is registered, and resets `currentStep` to 0. -/
def stop (c : AudioClock) : AudioClock :=
  let c1 := { c with isRunning := false }
  let c2 :=
    match c1.animationFrameId with
    | some _ => { c1 with animationFrameId := none }
    | none => c1
  { c2 with currentStep := 0 }

/-- `setBpm(bpm)`: clamps to [80, 200]; returns early when the clamped value
equals the current bpm; otherwise stores it and, when running with a live
audio context, rescales the time remaining until the next deadline by the
ratio of the new step duration to the old one. -/
def setBpm (c : AudioClock) (currentTime : ℚ) (bpm : ℚ) : AudioClock :=
  let clampedBpm := max 80 (min 200 bpm)
  if clampedBpm = c.bpm then
    c
  else
    let c1 := { c with bpm := clampedBpm }
    if c1.isRunning && c1.hasAudioContext then
      let oldStepDuration := c1.stepDuration
      let newStepDuration := calculateStepDuration clampedBpm
      let timeUntilNextStep := c1.nextStepTime - currentTime
      let adjustmentFactor := newStepDuration / oldStepDuration
      { c1 with
        stepDuration := newStepDuration
        nextStepTime := currentTime + timeUntilNextStep * adjustmentFactor }
    else
      c1

/-! ## useSequencer (src/frontend/src/hooks/useSequencer.ts)

The hook's React state becomes a structure; `setState` updates become pure
state transformers.  JavaScript arrays become lists and
`Array.prototype.map((x, i) => ...)` becomes `List.mapIdx`.  The channel/step
indices supplied by callers are `Int`, since the source compares them with
`===` and a caller may pass any integer. -/

/-- `initializeGrid()`: the 8×16 grid with every pad off. -/
def initializeGrid : List (List Bool) :=
  List.replicate 8 (List.replicate 16 false)

/-- The React state held by the `useSequencer` hook. -/
structure SequencerState where
  grid : List (List Bool)
  isPlaying : Bool
  currentStep : Nat
  bpm : ℚ
  deriving DecidableEq

/-- The initial hook state. -/
def initialState : SequencerState :=
  { grid := initializeGrid, isPlaying := false, currentStep := 0, bpm := 120 }

/-- The inner map of `togglePad`:
`row.map((pad, padIndex) => padIndex === stepIndex ? !pad : pad)`. -/
def toggleRow (stepIndex : Int) (row : List Bool) : List Bool :=
  row.mapIdx fun padIndex pad =>
    if (padIndex : Int) = stepIndex then !pad else pad

/-- `togglePad(channelIndex, stepIndex)`: maps over the rows and, in the row
whose index equals `channelIndex`, over the pads, negating the pad whose index
equals `stepIndex`.  No bounds check appears in the source. -/
def togglePad (s : SequencerState) (channelIndex stepIndex : Int) :
    SequencerState :=
  { s with
    grid := s.grid.mapIdx fun rowIndex row =>
      if (rowIndex : Int) = channelIndex then toggleRow stepIndex row
      else row }

/-- The boolean read at a grid coordinate, with JavaScript's out-of-bounds
reads (`undefined`, falsy) modelled by the defaults of `List.getD`. -/
def cell (s : SequencerState) (channel step : Nat) : Bool :=
  (s.grid.getD channel []).getD step false

/-- `getActiveChannels(stepIndex)`: maps each row to its channel index when
the cell at `stepIndex` is truthy and to `-1` otherwise, then filters out the
`-1` entries. -/
def getActiveChannels (grid : List (List Bool)) (stepIndex : Nat) : List Int :=
  (grid.mapIdx fun channelIndex row =>
      if row.getD stepIndex false then (channelIndex : Int) else -1).filter
    fun channelIndex => channelIndex != -1

/-! ## useSequencerWebSocket (src/frontend/src/hooks/useWebSocket.ts) -/

/-- Payloads of the client → actuator messages. -/
inductive MessageData where
  | gpioCommand (channels : List Int) (duration : Int)
  | immediateTrigger (channel : Int) (duration : Int)
  | stopChannels (channels : List Int)
  | ping (timestamp : Int)
  deriving DecidableEq

/-- The `{ type, data }` message envelope. -/
structure WebSocketMessage where
  type : String
  data : MessageData
  deriving DecidableEq

/-- Observable state of the hook: the connection flag derived from
`readyState`, the last recorded error, and the transcript of messages handed
to `sendJsonMessage` (accepted for transmission). -/
structure WSState where
  isConnected : Bool
  lastError : Option String
  sent : List WebSocketMessage
  deriving DecidableEq

/-- `sendMessage(message)`: when not connected, records an error and returns
false without transmitting anything; otherwise hands the message to
`sendJsonMessage` and returns true, or — should `sendJsonMessage` throw,
modelled by `sendOk = false` — records the error and returns false. -/
def sendMessage (s : WSState) (sendOk : Bool) (message : WebSocketMessage) :
    WSState × Bool :=
  if !s.isConnected then
    ({ s with lastError := some ("WebSocket not connected") }, false)
  else if sendOk then
    ({ s with sent := s.sent ++ [message] }, true)
  else
    ({ s with lastError := some ("Failed to send message") }, false)

/-- `triggerGpio(channels, duration)`: wraps the batch command in a
`gpio_trigger` envelope and defers to `sendMessage`. -/
def triggerGpio (s : WSState) (sendOk : Bool) (channels : List Int)
    (duration : Int) : WSState × Bool :=
  sendMessage s sendOk
    { type := "gpio_trigger", data := .gpioCommand channels duration }

/-- Option `shouldReconnect: () => true` passed to the websocket library. -/
def shouldReconnect : Bool := true

/-- Option `reconnectAttempts: 1` passed to the websocket library. -/
def reconnectAttempts : Nat := 1

/-- Option `reconnectInterval: 3000` (milliseconds) passed to the websocket
library. -/
def reconnectInterval : Nat := 3000

/-- Library contract for the configured options: after a disconnect, a further
reconnection attempt is scheduled (after `reconnectInterval` milliseconds)
only while the number of attempts already made is below `reconnectAttempts`. -/
def willScheduleReconnect (attemptsMade : Nat) : Bool :=
  shouldReconnect && decide (attemptsMade < reconnectAttempts)

/-- C6. For every tempo in [80, 200] the step duration is `(60/tempo)/4`
seconds, and the function is strictly decreasing in the tempo. -/
theorem calculateStepDuration_formula_strictAnti (t₁ t₂ : ℚ)
    (h₁ : 80 ≤ t₁) (h₁₂ : t₁ < t₂) (h₂ : t₂ ≤ 200) :
    calculateStepDuration t₁ = (60 / t₁) / 4 ∧
    calculateStepDuration t₂ = (60 / t₂) / 4 ∧
    calculateStepDuration t₂ < calculateStepDuration t₁ := by
  refine ⟨rfl, rfl, ?_⟩
  have ht₁ : (0 : ℚ) < t₁ := lt_of_lt_of_le (by norm_num) h₁
  have h60 : (60 : ℚ) / t₂ < 60 / t₁ :=
    div_lt_div_of_pos_left (by norm_num) ht₁ h₁₂
  unfold calculateStepDuration
  have h4 : (0 : ℚ) < 4 := by norm_num
  exact (div_lt_div_iff_of_pos_right h4).mpr h60

/-- A step duration computed from a positive tempo is positive. -/
theorem calculateStepDuration_pos {bpm : ℚ} (h : 0 < bpm) :
    0 < calculateStepDuration bpm := by
  unfold calculateStepDuration
  positivity

/-- C3. After `stop()` returns the clock is not running and `currentStep` is 0;
any invocation of the timing check on the stopped state fires no step event and
leaves the state unchanged (so no further check is ever scheduled); and `stop`
is idempotent. -/
theorem stop_resets_and_silences (c : AudioClock) :
    (stop c).isRunning = false ∧
    (stop c).currentStep = 0 ∧
    (∀ t : ℚ, ∀ fid : Nat, checkTiming (stop c) t fid = (stop c, none)) ∧
    stop (stop c) = stop c := by
  cases h : c.animationFrameId <;>
    simp [stop, checkTiming, h]

/-- C4. On a running clock whose deadline has elapsed, a single timing check
fires exactly one step event carrying the pre-advance `currentStep`, advances
`currentStep` to `(currentStep + 1) % 16`, and advances the deadline by exactly
one `stepDuration` added to the previous deadline — however far past the
deadline the current time is.  When the deadline has not elapsed, no event
fires. -/
theorem checkTiming_fires_exactly_one_step (c : AudioClock) (t : ℚ) (fid : Nat)
    (hrun : c.isRunning = true) (hctx : c.hasAudioContext = true)
    (helapsed : c.nextStepTime ≤ t) :
    (checkTiming c t fid).2 = some c.currentStep ∧
    ((checkTiming c t fid).1).currentStep = (c.currentStep + 1) % 16 ∧
    ((checkTiming c t fid).1).nextStepTime = c.nextStepTime + c.stepDuration ∧
    ((checkTiming c t fid).1).stepDuration = c.stepDuration ∧
    (∀ t' : ℚ, t' < c.nextStepTime → (checkTiming c t' fid).2 = none) := by
  refine ⟨?_, ?_, ?_, ?_, ?_⟩ <;>
    simp [checkTiming, triggerStep, totalSteps, hrun, hctx, helapsed]
  intro t' ht'
  simp [not_le.mpr ht']

/-- Witness for C4: a concrete running clock at bpm 120 with deadline 1 and
current time 10 (many step boundaries past due) fires one event for step 5,
advances to step 6, and moves the deadline to 1 + 1/8 — not to 10 + 1/8. -/
theorem checkTiming_fires_exactly_one_step_witness :
    (checkTiming ⟨true, 120, 5, some 3, 0, 1, 1/8, true⟩ 10 7).2 = some 5 ∧
    ((checkTiming ⟨true, 120, 5, some 3, 0, 1, 1/8, true⟩ 10 7).1).currentStep
      = (5 + 1) % 16 ∧
    ((checkTiming ⟨true, 120, 5, some 3, 0, 1, 1/8, true⟩ 10 7).1).nextStepTime
      = 1 + 1/8 ∧
    ((checkTiming ⟨true, 120, 5, some 3, 0, 1, 1/8, true⟩ 10 7).1).stepDuration
      = 1/8 ∧
    (∀ t' : ℚ, t' < 1 → (checkTiming ⟨true, 120, 5, some 3, 0, 1, 1/8, true⟩ t' 7).2 = none) :=
  checkTiming_fires_exactly_one_step ⟨true, 120, 5, some 3, 0, 1, 1/8, true⟩
    10 7 rfl rfl (by norm_num)

/-- C5. `setBpm` clamps its argument to [80, 200]; on a running clock with a
coherent step duration it sets the step duration for the clamped tempo and
rescales the time remaining until the next deadline by the ratio of the new
step duration to the old one, leaving the current step and the running flag
untouched, and keeping a still-future deadline in the future (so the rescale
alone neither double-fires nor skips a step). -/
theorem setBpm_clamps_and_rescales (c : AudioClock) (t b : ℚ)
    (hrun : c.isRunning = true) (hctx : c.hasAudioContext = true)
    (hinv : c.stepDuration = calculateStepDuration c.bpm)
    (hbpm : 80 ≤ c.bpm) :
    (setBpm c t b).bpm = max 80 (min 200 b) ∧
    (setBpm c t b).stepDuration = calculateStepDuration (max 80 (min 200 b)) ∧
    (setBpm c t b).nextStepTime - t =
      (c.nextStepTime - t) *
        (calculateStepDuration (max 80 (min 200 b)) / c.stepDuration) ∧
    (setBpm c t b).currentStep = c.currentStep ∧
    (setBpm c t b).isRunning = true ∧
    (0 < c.nextStepTime - t → 0 < (setBpm c t b).nextStepTime - t) := by
  have hc : (0 : ℚ) < c.bpm := lt_of_lt_of_le (by norm_num) hbpm
  have hold : 0 < c.stepDuration := hinv ▸ calculateStepDuration_pos hc
  have hclamp : (80 : ℚ) ≤ max 80 (min 200 b) := le_max_left _ _
  have hnew : 0 < calculateStepDuration (max 80 (min 200 b)) :=
    calculateStepDuration_pos (lt_of_lt_of_le (by norm_num) hclamp)
  have hbne : calculateStepDuration c.bpm ≠ 0 := ne_of_gt (calculateStepDuration_pos hc)
  by_cases heq : max 80 (min 200 b) = c.bpm
  · refine ⟨?_, ?_, ?_, ?_, ?_, ?_⟩ <;>
      simp [setBpm, heq, hrun, hinv, div_self hbne]
  · have hratio : 0 < calculateStepDuration (max 80 (min 200 b)) / c.stepDuration :=
      div_pos hnew hold
    have hres : setBpm c t b =
        { c with
          bpm := max 80 (min 200 b)
          stepDuration := calculateStepDuration (max 80 (min 200 b))
          nextStepTime := t + (c.nextStepTime - t) *
            (calculateStepDuration (max 80 (min 200 b)) / c.stepDuration) } := by
      simp [setBpm, heq, hrun, hctx]
    rw [hres]
    refine ⟨rfl, rfl, by ring, rfl, hrun, ?_⟩
    intro hpos
    have hx : t + (c.nextStepTime - t) *
        (calculateStepDuration (max 80 (min 200 b)) / c.stepDuration) - t =
        (c.nextStepTime - t) *
          (calculateStepDuration (max 80 (min 200 b)) / c.stepDuration) := by
      ring
    rw [hx]
    exact mul_pos hpos hratio

/-- Witness for C5: a running clock at bpm 120 (step duration 1/8) with
deadline 2 and current time 3/2, retargeted to bpm 100: the time remaining
scales by (3/20)/(1/8). -/
theorem setBpm_clamps_and_rescales_witness :
    (setBpm ⟨true, 120, 5, some 3, 0, 2, 1/8, true⟩ (3/2) 100).bpm
      = max 80 (min 200 100) ∧
    (setBpm ⟨true, 120, 5, some 3, 0, 2, 1/8, true⟩ (3/2) 100).stepDuration
      = calculateStepDuration (max 80 (min 200 100)) ∧
    (setBpm ⟨true, 120, 5, some 3, 0, 2, 1/8, true⟩ (3/2) 100).nextStepTime - 3/2
      = (2 - 3/2) * (calculateStepDuration (max 80 (min 200 100)) / (1/8)) ∧
    (setBpm ⟨true, 120, 5, some 3, 0, 2, 1/8, true⟩ (3/2) 100).currentStep = 5 ∧
    (setBpm ⟨true, 120, 5, some 3, 0, 2, 1/8, true⟩ (3/2) 100).isRunning = true ∧
    ((0 : ℚ) < 2 - 3/2 →
      0 < (setBpm ⟨true, 120, 5, some 3, 0, 2, 1/8, true⟩ (3/2) 100).nextStepTime - 3/2) := by
  exact setBpm_clamps_and_rescales ⟨true, 120, 5, some 3, 0, 2, 1/8, true⟩ (3/2) 100
    rfl rfl (by norm_num [calculateStepDuration]) (by norm_num)

/-- Witness for C6 at tempos 100 < 120. -/
theorem calculateStepDuration_formula_strictAnti_witness :
    calculateStepDuration 100 = (60 / 100) / 4 ∧
    calculateStepDuration 120 = (60 / 120) / 4 ∧
    calculateStepDuration 120 < calculateStepDuration 100 :=
  calculateStepDuration_formula_strictAnti 100 120
    (by norm_num) (by norm_num) (by norm_num)

/-! ## Helper lemmas on `List.mapIdx` -/

/-- Entry `i` of `l.mapIdx f` is `f i l[i]`. -/
theorem getElem_mapIdx_eq {α β : Type*} (l : List α) (f : Nat → α → β) (i : Nat)
    (h : i < l.length) (h' : i < (l.mapIdx f).length) :
    (l.mapIdx f).get ⟨i, h'⟩ = f i (l.get ⟨i, h⟩) :=
  List.get_mapIdx l f i h

/-- A pointwise fixed function leaves `mapIdx` alone. -/
theorem mapIdx_eq_self {α : Type*} (l : List α) (f : Nat → α → α)
    (hf : ∀ i : Nat, ∀ h : i < l.length, f i (l.get ⟨i, h⟩) = l.get ⟨i, h⟩) :
    l.mapIdx f = l := by
  apply List.ext_get
  · exact List.length_mapIdx
  · intro i h₁ h₂
    rw [getElem_mapIdx_eq l f i h₂, hf i h₂]

/-- Applying a pointwise involutive indexed function twice restores the
list. -/
theorem mapIdx_involution {α : Type*} (l : List α) (f : Nat → α → α)
    (hf : ∀ i a, f i (f i a) = a) : (l.mapIdx f).mapIdx f = l := by
  apply List.ext_get
  · rw [List.length_mapIdx, List.length_mapIdx]
  · intro i h₁ h₂
    have hm : i < (l.mapIdx f).length := by
      rw [List.length_mapIdx]; exact h₂
    rw [getElem_mapIdx_eq (l.mapIdx f) f i hm, getElem_mapIdx_eq l f i h₂, hf]

/-- `getD` at an in-bounds index reads the entry. -/
theorem getD_eq_get_of_lt {α : Type*} (l : List α) (i : Nat) (d : α)
    (h : i < l.length) : l.getD i d = l.get ⟨i, h⟩ := by
  simp [List.getD_eq_getElem?_getD, List.getElem?_eq_getElem h]

/-- `getD` past the end yields the default. -/
theorem getD_eq_d_of_le {α : Type*} (l : List α) (i : Nat) (d : α)
    (h : l.length ≤ i) : l.getD i d = d := by
  simp [List.getD_eq_getElem?_getD, List.getElem?_eq_none h]

/-! ## Lemmas about `togglePad` -/

/-- Replacing the grid of a state by an equal grid is the identity. -/
theorem SequencerState.eq_of_grid_eq {s : SequencerState}
    {g : List (List Bool)} (h : g = s.grid) :
    ({ s with grid := g } : SequencerState) = s := by
  cases s
  simpa using h

/-- Toggling a row twice restores it. -/
theorem toggleRow_involution (st : Int) (row : List Bool) :
    toggleRow st (toggleRow st row) = row := by
  apply mapIdx_involution
  intro j p
  by_cases hj : (j : Int) = st <;> simp [hj]

/-- `toggleRow` preserves the row length. -/
theorem toggleRow_length (st : Int) (row : List Bool) :
    (toggleRow st row).length = row.length :=
  List.length_mapIdx

/-- `toggleRow` leaves every pad other than the targeted one unchanged. -/
theorem toggleRow_getD_ne (st : Int) (row : List Bool) (j : Nat)
    (hj : (j : Int) ≠ st) :
    (toggleRow st row).getD j false = row.getD j false := by
  by_cases h : j < row.length
  · have h' : j < (toggleRow st row).length := by
      rw [toggleRow_length]; exact h
    rw [getD_eq_get_of_lt _ _ _ h', getD_eq_get_of_lt _ _ _ h]
    unfold toggleRow
    rw [getElem_mapIdx_eq row _ j h]
    simp [hj]
  · have h' : (toggleRow st row).length ≤ j := by
      rw [toggleRow_length]; exact Nat.le_of_not_lt h
    rw [getD_eq_d_of_le _ _ _ h', getD_eq_d_of_le _ _ _ (Nat.le_of_not_lt h)]

/-- A step index outside the row leaves the row unchanged: no pad index
compares equal to it. -/
theorem toggleRow_oob (st : Int) (row : List Bool)
    (h : st < 0 ∨ (row.length : Int) ≤ st) : toggleRow st row = row := by
  apply mapIdx_eq_self
  intro j hj
  have hne : (j : Int) ≠ st := by
    rcases h with h | h
    · intro he
      exact absurd (he ▸ h) (not_lt.mpr (Int.ofNat_nonneg j))
    · intro he
      have : (j : Int) < (row.length : Int) := by exact_mod_cast hj
      exact absurd (lt_of_lt_of_le this h) (not_lt.mpr (le_of_eq he.symm))
  simp [hne]

/-- Out-of-bounds toggles leave the whole state unchanged (shared helper). -/
theorem togglePad_oob_eq_self (s : SequencerState) (c st : Int)
    (hlen : s.grid.length = 8) (hrow : ∀ row ∈ s.grid, row.length = 16)
    (hoob : c < 0 ∨ 8 ≤ c ∨ st < 0 ∨ 16 ≤ st) :
    togglePad s c st = s := by
  have hgrid : (s.grid.mapIdx fun rowIndex row =>
      if (rowIndex : Int) = c then toggleRow st row else row) = s.grid := by
    apply mapIdx_eq_self
    intro i hi
    by_cases hic : (i : Int) = c
    · rw [if_pos hic]
      have hi0 : (0 : Int) ≤ c := hic ▸ Int.ofNat_nonneg i
      have hi8 : c < 8 := by
        have h8 : i < 8 := hlen ▸ hi
        exact hic ▸ (by exact_mod_cast h8)
      have hst : st < 0 ∨ 16 ≤ st := by
        rcases hoob with h | h | h | h
        · exact absurd h (not_lt.mpr hi0)
        · exact absurd hi8 (not_lt.mpr h)
        · exact Or.inl h
        · exact Or.inr h
      apply toggleRow_oob
      have hrl : (s.grid.get ⟨i, hi⟩).length = 16 :=
        hrow _ (List.get_mem s.grid _ _)
      rcases hst with h | h
      · exact Or.inl h
      · right
        rw [hrl]
        exact_mod_cast h
    · rw [if_neg hic]
  exact SequencerState.eq_of_grid_eq hgrid

/-- C9. For every in-bounds coordinate, toggling twice restores the state
exactly; a single toggle changes no cell other than the targeted one and
leaves `isPlaying`, `currentStep` and `bpm` untouched. -/
theorem togglePad_involution_and_frame (s : SequencerState) (c st : Int)
    (hc0 : 0 ≤ c) (hc : c < 8) (hs0 : 0 ≤ st) (hs : st < 16) :
    togglePad (togglePad s c st) c st = s ∧
    (∀ c' st' : Nat, ((c' : Int) ≠ c ∨ (st' : Int) ≠ st) →
      cell (togglePad s c st) c' st' = cell s c' st') ∧
    (togglePad s c st).isPlaying = s.isPlaying ∧
    (togglePad s c st).currentStep = s.currentStep ∧
    (togglePad s c st).bpm = s.bpm := by
  refine ⟨?_, ?_, rfl, rfl, rfl⟩
  · have houter : ((s.grid.mapIdx fun rowIndex row =>
        if (rowIndex : Int) = c then toggleRow st row else row).mapIdx
          fun rowIndex row =>
            if (rowIndex : Int) = c then toggleRow st row else row) = s.grid := by
      apply mapIdx_involution
      intro i row
      by_cases hi : (i : Int) = c <;> simp [hi, toggleRow_involution]
    exact SequencerState.eq_of_grid_eq houter
  · intro c' st' hne
    unfold cell togglePad
    by_cases hlt : c' < s.grid.length
    · have hlt' : c' < (s.grid.mapIdx fun rowIndex row =>
          if (rowIndex : Int) = c then toggleRow st row else row).length := by
        rw [List.length_mapIdx]; exact hlt
      rw [getD_eq_get_of_lt _ _ _ hlt', getD_eq_get_of_lt _ _ _ hlt,
        getElem_mapIdx_eq s.grid _ c' hlt]
      by_cases hci : (c' : Int) = c
      · rw [if_pos hci]
        exact toggleRow_getD_ne st _ st' (hne.resolve_left (not_not_intro hci))
      · rw [if_neg hci]
    · have hge' : (s.grid.mapIdx fun rowIndex row =>
          if (rowIndex : Int) = c then toggleRow st row else row).length ≤ c' := by
        rw [List.length_mapIdx]; exact Nat.le_of_not_lt hlt
      rw [getD_eq_d_of_le _ _ _ hge',
        getD_eq_d_of_le _ _ _ (Nat.le_of_not_lt hlt)]

/-- Witness for C9 at the in-bounds coordinate (channel 3, step 7) of the
initial state. -/
theorem togglePad_involution_and_frame_witness :
    togglePad (togglePad initialState 3 7) 3 7 = initialState ∧
    (∀ c' st' : Nat, ((c' : Int) ≠ 3 ∨ (st' : Int) ≠ 7) →
      cell (togglePad initialState 3 7) c' st' = cell initialState c' st') ∧
    (togglePad initialState 3 7).isPlaying = initialState.isPlaying ∧
    (togglePad initialState 3 7).currentStep = initialState.currentStep ∧
    (togglePad initialState 3 7).bpm = initialState.bpm :=
  togglePad_involution_and_frame initialState 3 7
    (by decide) (by decide) (by decide) (by decide)

/-- C10. For every out-of-bounds coordinate, the pad toggle returns normally
and leaves the entire sequencer state — grid, `isPlaying`, `currentStep` and
`bpm` — unchanged. -/
theorem togglePad_out_of_bounds_noop (s : SequencerState) (c st : Int)
    (hlen : s.grid.length = 8) (hrow : ∀ row ∈ s.grid, row.length = 16)
    (hoob : c < 0 ∨ 8 ≤ c ∨ st < 0 ∨ 16 ≤ st) :
    togglePad s c st = s :=
  togglePad_oob_eq_self s c st hlen hrow hoob

/-- Witness for C10 on the initial state at channel −3, step 99. -/
theorem togglePad_out_of_bounds_noop_witness :
    togglePad initialState (-3) 99 = initialState :=
  togglePad_out_of_bounds_noop initialState (-3) 99
    (by decide) (by decide) (by decide)

/-- C1 counterexample: at the out-of-bounds input channel 8, step 0, the
toggle operation returns normally with the state unchanged — it rejects
nothing and raises no `InvalidIndexError` (the operation is total), nor does
it clamp the index (a clamp would have flipped a cell of row 7). -/
theorem togglePad_out_of_bounds_no_error :
    togglePad initialState 8 0 = initialState := by decide

/-- C1 (amended). For every out-of-bounds coordinate the toggle operation
does not fail: it returns normally and leaves every grid cell unchanged — a
silent no-op rather than a clamp or a rejection. -/
theorem togglePad_out_of_bounds_silent (s : SequencerState) (c st : Int)
    (hlen : s.grid.length = 8) (hrow : ∀ row ∈ s.grid, row.length = 16)
    (hoob : c < 0 ∨ 8 ≤ c ∨ st < 0 ∨ 16 ≤ st) :
    ∀ c' st' : Nat, cell (togglePad s c st) c' st' = cell s c' st' := by
  intro c' st'
  rw [togglePad_oob_eq_self s c st hlen hrow hoob]

/-- Witness for the amended C1 on the initial state at channel −1, step 20:
the cell at (3, 5) is untouched. -/
theorem togglePad_out_of_bounds_silent_witness :
    cell (togglePad initialState (-1) 20) 3 5 = cell initialState 3 5 :=
  togglePad_out_of_bounds_silent initialState (-1) 20
    (by decide) (by decide) (by decide) 3 5

/-- C7. For every grid and step, `getActiveChannels` returns the channel
indices whose cell at that step is true, in strictly ascending order (hence
without duplicates), and returns the empty list when no cell in the column is
set. -/
theorem getActiveChannels_sorted_mem_empty (grid : List (List Bool))
    (step : Nat) :
    (getActiveChannels grid step).Pairwise (· < ·) ∧
    (∀ c : Nat, (c : Int) ∈ getActiveChannels grid step ↔
      c < grid.length ∧ (grid.getD c []).getD step false = true) ∧
    ((∀ c : Nat, c < grid.length → (grid.getD c []).getD step false = false) →
      getActiveChannels grid step = []) := by
  have hm : (grid.mapIdx fun channelIndex row =>
      if row.getD step false then (channelIndex : Int) else -1).Pairwise
        (fun a b => a = -1 ∨ b = -1 ∨ a < b) := by
    rw [List.pairwise_iff_get]
    rintro ⟨i, hi⟩ ⟨j, hj⟩ hij
    have hi' : i < grid.length := by rwa [List.length_mapIdx] at hi
    have hj' : j < grid.length := by rwa [List.length_mapIdx] at hj
    rw [getElem_mapIdx_eq grid _ i hi', getElem_mapIdx_eq grid _ j hj']
    by_cases hri : (grid.get ⟨i, hi'⟩).getD step false = true
    · by_cases hrj : (grid.get ⟨j, hj'⟩).getD step false = true
      · right; right
        rw [if_pos hri, if_pos hrj]
        have : i < j := hij
        exact_mod_cast this
      · right; left
        rw [if_neg hrj]
    · left
      rw [if_neg hri]
  refine ⟨?_, ?_, ?_⟩
  · unfold getActiveChannels
    refine List.Pairwise.imp_of_mem ?_ (List.Pairwise.filter _ hm)
    intro a b ha hb hr
    have ha' : a ≠ -1 := by
      have := (List.mem_filter.mp ha).2
      simpa using this
    have hb' : b ≠ -1 := by
      have := (List.mem_filter.mp hb).2
      simpa using this
    rcases hr with h | h | h
    · exact absurd h ha'
    · exact absurd h hb'
    · exact h
  · intro c
    unfold getActiveChannels
    rw [List.mem_filter]
    constructor
    · rintro ⟨hin, -⟩
      rw [List.mem_iff_get] at hin
      obtain ⟨⟨i, hi⟩, hval⟩ := hin
      have hi' : i < grid.length := by rwa [List.length_mapIdx] at hi
      rw [getElem_mapIdx_eq grid _ i hi'] at hval
      by_cases hcell : (grid.get ⟨i, hi'⟩).getD step false = true
      · rw [if_pos hcell] at hval
        have hic : i = c := by exact_mod_cast hval
        subst hic
        refine ⟨hi', ?_⟩
        rw [getD_eq_get_of_lt _ _ _ hi']
        exact hcell
      · rw [if_neg hcell] at hval
        exact absurd hval (by omega)
    · rintro ⟨hc, hcell⟩
      constructor
      · rw [List.mem_iff_get]
        have hc' : c < (grid.mapIdx fun channelIndex row =>
            if row.getD step false then (channelIndex : Int) else -1).length := by
          rwa [List.length_mapIdx]
        refine ⟨⟨c, hc'⟩, ?_⟩
        rw [getElem_mapIdx_eq grid _ c hc]
        rw [getD_eq_get_of_lt _ _ _ hc] at hcell
        rw [if_pos hcell]
      · have : (c : Int) ≠ -1 := by omega
        simpa using this
  · intro hall
    unfold getActiveChannels
    rw [List.filter_eq_nil_iff]
    intro a ha
    rw [List.mem_iff_get] at ha
    obtain ⟨⟨i, hi⟩, hval⟩ := ha
    have hi' : i < grid.length := by rwa [List.length_mapIdx] at hi
    rw [getElem_mapIdx_eq grid _ i hi'] at hval
    have hcell := hall i hi'
    rw [getD_eq_get_of_lt _ _ _ hi'] at hcell
    rw [hcell] at hval
    simp only [Bool.false_eq_true, if_false] at hval
    simp [← hval]

/-- C8. `triggerGpio` (the batch trigger) returns `isConnected && sendOk` and
appends the `gpio_trigger` message to the transcript of transmitted messages
exactly when connected and accepted: while disconnected it returns false and
transmits nothing, not even partially. -/
theorem triggerGpio_requires_connection (s : WSState) (sendOk : Bool)
    (channels : List Int) (duration : Int) :
    (triggerGpio s sendOk channels duration).2 = (s.isConnected && sendOk) ∧
    ((triggerGpio s sendOk channels duration).1).sent =
      (if s.isConnected && sendOk then
        s.sent ++ [{ type := ("gpio_trigger"),
                     data := MessageData.gpioCommand channels duration }]
      else s.sent) := by
  cases hc : s.isConnected <;> cases hok : sendOk <;>
    simp [triggerGpio, sendMessage, hc, hok]

/-- C2 evidence: the websocket is configured with `reconnectAttempts: 1` and a
fixed `reconnectInterval: 3000`: an attempt is scheduled after the first
disconnect, but after that single attempt no further attempt is ever
scheduled, and the interval is the constant 3000 ms — the session neither
retries indefinitely nor grows the spacing exponentially. -/
theorem reconnect_single_attempt_fixed_interval :
    willScheduleReconnect 0 = true ∧
    willScheduleReconnect 1 = false ∧
    reconnectAttempts = 1 ∧
    reconnectInterval = 3000 := by
  refine ⟨rfl, by decide, rfl, rfl⟩

end PiSequencer
